import Mathlib

/-!
# loggen: the generation / sending pipeline `senders.Start`

A shallow embedding of `internal/senders/sender.go`.  `Start` runs three kinds of
goroutines against one buffered channel, one ticker, one `sync.WaitGroup` and three
process-wide counters:

* the production goroutine (lines 26-46),
* the dispatch loop, which is the body of `Start` itself (lines 48-80),
* one delivery goroutine for every dequeued batch (lines 59-78).

The embedding is a labelled transition system.  A `State` holds the program counter of
every goroutine together with the shared objects; an `Event` is one atomic action of one
goroutine or of the environment (the context being cancelled, the ticker firing, a call
of `Generate`, `Rate` or `Send` returning, code outside `Start` writing to a backing
array); `step` says whether an event is enabled and
what it does, and `run` executes a list of events.  An interleaving of the program is a
list of events that `run` accepts from `init`.

A batch is a Go slice, that is, a reference into a backing array; `Start` queues and
hands on the reference and never copies the bytes, so the state also holds the memory the
references point into, which only code outside `Start` (the generator, the sender) writes.
The counters receive `float64` values, as at lines 68-69.  Panics and process exit are
outside the model.
-/

namespace Senders

/-- A batch: the Go slice `[]byte` returned by `Generate`, that is, a reference to the
`len` bytes of the backing array `arr` that start at offset `off`.  `Start` stores, queues
and passes on this reference; it never copies the bytes. -/
structure Batch where
  arr : Nat
  off : Nat
  len : Nat
deriving DecidableEq

/-- The backing arrays of the slices, as a log of writes: the latest write to an array
comes first. -/
abbrev Memory := List (Nat × List Nat)

/-- The bytes backing array `x` holds: those of the latest write to it. -/
def readArr : Memory → Nat → List Nat
  | [], _ => []
  | (a, bytes) :: m, x => if a = x then bytes else readArr m x

/-- The bytes a batch refers to in memory `m`. -/
def contents (m : Memory) (b : Batch) : List Nat :=
  ((readArr m b.arr).drop b.off).take b.len

/-- Number of low bits a natural number loses when it is rounded to a significand of 53
bits: the least `k` with `a / 2 ^ k < 2 ^ 53` (for `a < 2 ^ (53 + fuel)`). -/
def excessBits (a : Nat) : Nat → Nat
  | 0 => 0
  | fuel + 1 => if a < 2 ^ 53 then 0 else excessBits (a / 2) fuel + 1

/-- Rounds a natural number to the nearest one with a significand of 53 bits, ties to the
even significand (IEEE 754 round-to-nearest-even). -/
def roundNat (a : Nat) : Nat :=
  let k := excessBits a 64
  let q := a / 2 ^ k
  let r := a % 2 ^ k
  let up := if 2 * r < 2 ^ k then false else if 2 * r = 2 ^ k then decide (q % 2 = 1) else true
  (if up then q + 1 else q) * 2 ^ k

/-- The Go conversion `float64(n)` of an `int` (lines 68-69): `n` itself when
`|n| ≤ 2 ^ 53`, else the nearest `float64`, which is again an integer.  The fuel of
`excessBits` covers every 64-bit `int`. -/
def float64 (n : Int) : Int :=
  if 0 ≤ n then (roundNat n.natAbs : Int) else -(roundNat n.natAbs : Int)

/-- A process-wide counter of `internal/prom`. -/
abbrev Counter := Int

/-- Modelled from the spec: the counters `prom.Lines()`, `prom.Bytes()` and
`prom.Errors()` live in `internal/prom`, which is not among the sources.  The spec calls
them counters that the delivery tasks increment without lost updates and that increase by
the amount given; `Add v` is modelled as the counter growing atomically by `v`, where `v`
is the `float64` the call site passes.  The spec calls the counters monotonically
increasing and says nothing of a negative `v`; the results below assume `0 ≤ Rate()`. -/
def counterAdd (c : Counter) (v : Int) : Counter := c + v

/-- Capacity of `batchChannel` (line 25: `make(chan []byte, 5)`). -/
def queueCap : Nat := 5

/-- Program counter of the production goroutine (lines 26-46). -/
inductive ProdPC where
  /-- At the `select` of line 30. -/
  | check
  /-- The `default` branch was taken (line 33); `Generate` of line 35 is called and has not
  returned yet. -/
  | generating
  /-- Generate succeeded; the goroutine holds the batch and is at `batchChannel <- batch`
  (line 43). -/
  | sending (b : Batch)
  /-- The `return` of line 32 was executed. -/
  | returned
deriving DecidableEq

/-- Program counter of the dispatch loop, the body of `Start` (lines 52-80). -/
inductive DispPC where
  /-- At the `select` of line 53. -/
  | select
  /-- A tick was received (line 57); at `batch := <-batchChannel` (line 58). -/
  | recv
  /-- The `ctx.Done()` case was taken (line 54); inside `wg.Wait()` (line 55). -/
  | waiting
  /-- The `return` of line 56 was executed: `Start` has returned. -/
  | returned
deriving DecidableEq

/-- Program counter of one delivery goroutine (lines 59-78). -/
inductive Stage where
  /-- Spawned by the `go` statement of line 59; before `wg.Add(1)` (lines 60-64). -/
  | started
  /-- After `wg.Add(1)` (line 65), before `prom.Lines().Add` (line 68). -/
  | added
  /-- After `prom.Lines().Add` (line 68), before `prom.Bytes().Add` (line 69). -/
  | linesDone
  /-- After `prom.Bytes().Add` (line 69), before the call of `sender.Send` (line 71). -/
  | bytesDone
  /-- The goroutine has called `sender.Send` (line 71), which has not returned. -/
  | inSend
  /-- Send returned a non-nil error; before `prom.Errors().Inc()` (line 72). -/
  | sendFailed
  /-- Send returned nil, or lines 72-76 were executed; before the deferred `wg.Done()`. -/
  | finishing
  /-- The deferred `wg.Done()` ran: the goroutine has completed. -/
  | done
deriving DecidableEq

/-- One delivery goroutine: the batch captured by its closure (the variable `batch` of
line 58, which line 71 passes to `Send`), where the goroutine stands, and whether its
`Send` call returned an error. -/
structure Task where
  batch : Batch
  stage : Stage
  failed : Bool
deriving DecidableEq

/-- The state of one run of `Start`. -/
structure State where
  /-- Whether `ctx.Done()` is closed. -/
  cancelled : Bool
  /-- Whether a tick is buffered in `t.C` (a ticker channel has capacity 1). -/
  tickReady : Bool
  prod : ProdPC
  /-- Contents of the buffered channel `batchChannel` (line 25), oldest first. -/
  batchChannel : List Batch
  disp : DispPC
  /-- The delivery goroutines, in the order in which they were spawned. -/
  tasks : List Task
  /-- The backing arrays the batches refer to. -/
  mem : Memory
  /-- Counter of the wait group `wg`. -/
  wg : Int
  lines : Counter
  bytes : Counter
  errors : Counter
deriving DecidableEq

/-- Atomic actions of the goroutines and of their environment. -/
inductive Event where
  /-- The context is cancelled (idempotent, never undone). -/
  | cancel
  /-- The ticker fires; the tick is dropped when one is already buffered. -/
  | tick
  /-- Producer, line 30: the `select` is evaluated. -/
  | prodSelect
  /-- Producer, line 35: `Generate` returns `(b, nil)` (`some b`) or an error (`none`). -/
  | genReturn (r : Option Batch)
  /-- Producer, line 43: the send on `batchChannel` completes. -/
  | enqueue
  /-- Dispatch loop, line 54: the `select` takes the `ctx.Done()` case. -/
  | dispDone
  /-- Dispatch loop, line 57: the `select` takes the tick. -/
  | dispTick
  /-- Dispatch loop, lines 58-59: a batch is received and its goroutine is spawned. -/
  | dequeue
  /-- Dispatch loop, lines 55-56: `wg.Wait()` returns and `Start` returns. -/
  | waitReturn
  /-- Delivery goroutine `i`, line 65: `wg.Add(1)`. -/
  | wgAdd (i : Nat)
  /-- Delivery goroutine `i`, line 68: `Rate()` returns `rate` and `float64(rate)` is added
  to lines. -/
  | addLines (i : Nat) (rate : Int)
  /-- Delivery goroutine `i`, line 69: `float64(size)` is added to bytes. -/
  | addBytes (i : Nat)
  /-- Delivery goroutine `i`, line 71: `sender.Send` is called with the slice `b`. -/
  | callSend (i : Nat) (b : Batch)
  /-- Delivery goroutine `i`, line 71: `Send` returns, with an error iff `err`. -/
  | sendReturn (i : Nat) (err : Bool)
  /-- Delivery goroutine `i`, lines 72-76: the error counter is incremented. -/
  | incErrors (i : Nat)
  /-- Delivery goroutine `i`: the deferred `wg.Done()` runs (line 66). -/
  | wgDone (i : Nat)
  /-- Code outside `Start` (the generator, the sender, goroutines of theirs) stores `bytes`
  in the backing array `a`. -/
  | write (a : Nat) (bytes : List Nat)
deriving DecidableEq

/-- The state in which `Start` is entered: nothing is cancelled or queued, no goroutine is
spawned, and the process-wide counters hold whatever they held before.  The log of
writes is empty: bytes stored before `Start` is entered are `write` events at the head of
the run. -/
def init (l0 b0 e0 : Counter) : State :=
  { cancelled := false, tickReady := false, prod := .check, batchChannel := [],
    disp := .select, tasks := [], mem := [], wg := 0, lines := l0, bytes := b0,
    errors := e0 }

/-- One atomic action of a run of `Start` (lines 24-81): `none` when the event is not
enabled in `s`, that is, when the goroutine is not at that line or is blocked there. -/
def step (s : State) : Event → Option State
  | .cancel => some { s with cancelled := true }
  | .tick => some { s with tickReady := true }
  | .prodSelect =>
    match s.prod with
    | .check =>
      if s.cancelled then some { s with prod := .returned }
      else some { s with prod := .generating }
    | _ => none
  | .genReturn r =>
    match s.prod with
    | .generating =>
      match r with
      | none => some { s with prod := .check }
      | some b => some { s with prod := .sending b }
    | _ => none
  | .enqueue =>
    match s.prod with
    | .sending b =>
      if s.batchChannel.length < queueCap then
        some { s with prod := .check, batchChannel := s.batchChannel ++ [b] }
      else none
    | _ => none
  | .dispDone =>
    match s.disp with
    | .select => if s.cancelled then some { s with disp := .waiting } else none
    | _ => none
  | .dispTick =>
    match s.disp with
    | .select =>
      if s.tickReady then some { s with disp := .recv, tickReady := false } else none
    | _ => none
  | .dequeue =>
    match s.disp with
    | .recv =>
      match s.batchChannel with
      | [] => none
      | b :: q =>
        some { s with disp := .select, batchChannel := q,
                      tasks := s.tasks ++ [{ batch := b, stage := .started, failed := false }] }
    | _ => none
  | .waitReturn =>
    match s.disp with
    | .waiting => if s.wg = 0 then some { s with disp := .returned } else none
    | _ => none
  | .wgAdd i =>
    match s.tasks[i]? with
    | some t =>
      if t.stage = .started then
        some { s with tasks := s.tasks.set i { t with stage := .added }, wg := s.wg + 1 }
      else none
    | none => none
  | .addLines i rate =>
    match s.tasks[i]? with
    | some t =>
      if t.stage = .added then
        some { s with tasks := s.tasks.set i { t with stage := .linesDone },
                      lines := counterAdd s.lines (float64 rate) }
      else none
    | none => none
  | .addBytes i =>
    match s.tasks[i]? with
    | some t =>
      if t.stage = .linesDone then
        some { s with tasks := s.tasks.set i { t with stage := .bytesDone },
                      bytes := counterAdd s.bytes (float64 t.batch.len) }
      else none
    | none => none
  | .callSend i b =>
    match s.tasks[i]? with
    | some t =>
      if t.stage = .bytesDone ∧ b = t.batch then
        some { s with tasks := s.tasks.set i { t with stage := .inSend } }
      else none
    | none => none
  | .sendReturn i err =>
    match s.tasks[i]? with
    | some t =>
      if t.stage = .inSend then
        if err then
          some { s with tasks := s.tasks.set i { t with stage := .sendFailed, failed := true } }
        else
          some { s with tasks := s.tasks.set i { t with stage := .finishing } }
      else none
    | none => none
  | .incErrors i =>
    match s.tasks[i]? with
    | some t =>
      if t.stage = .sendFailed then
        some { s with tasks := s.tasks.set i { t with stage := .finishing },
                      errors := counterAdd s.errors 1 }
      else none
    | none => none
  | .wgDone i =>
    match s.tasks[i]? with
    | some t =>
      if t.stage = .finishing then
        some { s with tasks := s.tasks.set i { t with stage := .done }, wg := s.wg - 1 }
      else none
    | none => none
  | .write a bytes => some { s with mem := (a, bytes) :: s.mem }

/-- Executes a list of events in order: `none` as soon as one of them is not enabled. -/
def run (s : State) : List Event → Option State
  | [] => some s
  | e :: es => (step s e).bind fun s' => run s' es

/-! ## Observations on states and on runs -/

/-- The batch the production goroutine holds while it stands at the enqueue. -/
def held : ProdPC → List Batch
  | .sending b => [b]
  | _ => []

/-- Every batch inside the pipeline, oldest first: the batches of the spawned delivery
goroutines, then the queue, then the batch held by the producer. -/
def pipeline (s : State) : List Batch :=
  s.tasks.map Task.batch ++ s.batchChannel ++ held s.prod

/-- The batch a successful `Generate` call returns in this event, if it is one. -/
def genOf : Event → List Batch
  | .genReturn (some b) => [b]
  | _ => []

/-- The batches returned by the successful `Generate` calls of a run, in order. -/
def genBatches : List Event → List Batch
  | [] => []
  | e :: es => genOf e ++ genBatches es

/-- Whether the event is the dispatch loop processing a tick (dequeue and spawn). -/
def isDequeue : Event → Bool
  | .dequeue => true
  | _ => false

/-- Whether the event is the producer completing an enqueue. -/
def isEnqueue : Event → Bool
  | .enqueue => true
  | _ => false

/-- Whether the event is a `Generate` call returning (with a batch or with an error). -/
def isGenReturn : Event → Bool
  | .genReturn _ => true
  | _ => false

/-- Whether the event is a `Generate` call returning an error. -/
def isGenError : Event → Bool
  | .genReturn none => true
  | _ => false

/-- Whether the event is a `Send` call returning (with or without an error). -/
def isSendReturn : Event → Bool
  | .sendReturn _ _ => true
  | _ => false

/-- Whether the event is a `Send` call returning a non-nil error. -/
def isSendError : Event → Bool
  | .sendReturn _ true => true
  | _ => false

/-- Whether the event is the error counter being incremented (line 72). -/
def isIncErrors : Event → Bool
  | .incErrors _ => true
  | _ => false

/-- Whether the event is a write to the backing array `a` by code outside `Start`. -/
def writesTo (a : Nat) : Event → Bool
  | .write x _ => decide (x = a)
  | _ => false

/-- Whether the event is an action of the dispatch loop itself. -/
def isDispatch : Event → Bool
  | .dispDone => true
  | .dispTick => true
  | .dequeue => true
  | .waitReturn => true
  | _ => false

/-- Whether every `Rate()` call made in the event (if any) returned `r`. -/
def rateIs (r : Int) : Event → Bool
  | .addLines _ rate => decide (rate = r)
  | _ => true

/-- Whether `Rate()` returned the constant `r` throughout the run. -/
def constRate (r : Int) (es : List Event) : Bool := es.all (rateIs r)

/-- Whether the goroutine has executed line 68 (lines counter incremented). -/
def Stage.linesCounted : Stage → Bool
  | .started => false
  | .added => false
  | _ => true

/-- Whether the goroutine has executed line 69 (bytes counter incremented). -/
def Stage.bytesCounted : Stage → Bool
  | .started => false
  | .added => false
  | .linesDone => false
  | _ => true

/-- Whether the goroutine has called `Send` (line 71). -/
def Stage.calledSend : Stage → Bool
  | .started => false
  | .added => false
  | .linesDone => false
  | .bytesDone => false
  | _ => true

/-- Whether the goroutine is registered in the wait group: after `wg.Add(1)` and before
`wg.Done()`. -/
def Stage.registered : Stage → Bool
  | .started => false
  | .done => false
  | _ => true

/-- Contribution of a goroutine to the wait-group counter. -/
def wgW (t : Task) : Int := if t.stage.registered then 1 else 0

/-- Number of times a goroutine has incremented the lines counter. -/
def linesW (t : Task) : Int := if t.stage.linesCounted then 1 else 0

/-- What a goroutine has added to the bytes counter: `float64` of the size of its batch
once it has executed line 69. -/
def bytesW (t : Task) : Int := if t.stage.bytesCounted then float64 t.batch.len else 0

/-- Size of the batch of a goroutine that has executed line 69, else 0. -/
def sizeW (t : Task) : Int := if t.stage.bytesCounted then (t.batch.len : Int) else 0

/-- Is 1 when the `Send` call of the goroutine returned an error and line 72 has not run
yet. -/
def pendingW (t : Task) : Int := if t.stage = .sendFailed then 1 else 0

/-- Sum of a weight over the delivery goroutines. -/
def total (w : Task → Int) (s : State) : Int := (s.tasks.map w).sum

/-- Whether every spawned delivery goroutine has completed. -/
def allDone (s : State) : Bool := s.tasks.all fun t => decide (t.stage = .done)

/-- Whether `Start` has returned. -/
def startReturned (s : State) : Bool := decide (s.disp = .returned)

/-- Number of events of a run satisfying `p`. -/
def count (p : Event → Bool) (es : List Event) : Nat := es.countP p

/-- How many more enqueues the producer can complete without a new generation attempt. -/
def enqBudget : ProdPC → Nat
  | .generating => 1
  | .sending _ => 1
  | _ => 0

/-- How many more `Generate` calls can return without a new generation attempt. -/
def genBudget : ProdPC → Nat
  | .generating => 1
  | _ => 0

/-- Whether the event is delivery goroutine `k` calling `Send`. -/
def callsOf (k : Nat) : Event → Bool
  | .callSend i _ => decide (i = k)
  | _ => false

/-- Is 1 when delivery goroutine `k` exists and has called `Send`, else 0. -/
def sentAt (k : Nat) (s : State) : Nat :=
  match s.tasks[k]? with
  | some t => if t.stage.calledSend then 1 else 0
  | none => 0

/-- The actions that take delivery goroutine `k`, holding batch `b` and standing at the
given stage, up to and including its call of `Send` (lines 65-71), when `Rate()` returns
`rate`; empty once `Send` has been called. -/
def toSend (k : Nat) (rate : Int) (b : Batch) : Stage → List Event
  | .started => [.wgAdd k, .addLines k rate, .addBytes k, .callSend k b]
  | .added => [.addLines k rate, .addBytes k, .callSend k b]
  | .linesDone => [.addBytes k, .callSend k b]
  | .bytesDone => [.callSend k b]
  | _ => []

/-! ## Concrete runs -/

/-- One batch is generated, queued, dequeued on a tick and handed to a fresh goroutine;
the context is then cancelled and the dispatch loop returns through `wg.Wait()` before the
goroutine has reached `wg.Add(1)`. -/
def raceTrace : List Event :=
  [.prodSelect, .genReturn (some ⟨1, 0, 3⟩), .enqueue, .tick, .dispTick, .dequeue,
   .cancel, .dispDone, .waitReturn]

/-- The state `raceTrace` ends in. -/
def raceState : State :=
  { cancelled := true, tickReady := false, prod := .check, batchChannel := [],
    disp := .returned, tasks := [{ batch := ⟨1, 0, 3⟩, stage := .started, failed := false }],
    mem := [], wg := 0, lines := 0, bytes := 0, errors := 0 }

/-- What the goroutine of `raceState` does after `Start` has returned: it goes on to call
`Send`. -/
def raceRest : List Event :=
  [.wgAdd 0, .addLines 0 100, .addBytes 0, .callSend 0 ⟨1, 0, 3⟩]

/-- The state `raceRest` leads to from `raceState`. -/
def raceLateState : State :=
  { raceState with
    tasks := [{ batch := ⟨1, 0, 3⟩, stage := .inSend, failed := false }],
    wg := 1, lines := 100, bytes := 3 }

/-- One full iteration of the production loop with a successful `Generate`. -/
def produce (b : Batch) : List Event := [.prodSelect, .genReturn (some b), .enqueue]

/-- Six successful generations fill the queue and leave the producer holding the sixth
batch; one tick then dequeues a batch whose goroutine stays inside `Send`; the producer
enqueues the sixth batch and generates a seventh.  No `Send` ever returns. -/
def stallTrace : List Event :=
  produce ⟨1, 0, 1⟩ ++ produce ⟨2, 0, 1⟩ ++ produce ⟨3, 0, 1⟩ ++ produce ⟨4, 0, 1⟩ ++
  produce ⟨5, 0, 1⟩ ++
  [.prodSelect, .genReturn (some ⟨6, 0, 1⟩),
   .tick, .dispTick, .dequeue, .wgAdd 0, .addLines 0 100, .addBytes 0,
   .callSend 0 ⟨1, 0, 1⟩,
   .enqueue, .prodSelect, .genReturn (some ⟨7, 0, 1⟩)]

/-- The state `stallTrace` ends in. -/
def stallState : State :=
  { cancelled := false, tickReady := false, prod := .sending ⟨7, 0, 1⟩,
    batchChannel := [⟨2, 0, 1⟩, ⟨3, 0, 1⟩, ⟨4, 0, 1⟩, ⟨5, 0, 1⟩, ⟨6, 0, 1⟩],
    disp := .select,
    tasks := [{ batch := ⟨1, 0, 1⟩, stage := .inSend, failed := false }],
    mem := [], wg := 1, lines := 100, bytes := 1, errors := 0 }

/-- Six successful generations and no dispatch: the queue is full and the producer holds
the sixth batch. -/
def fillTrace : List Event :=
  produce ⟨1, 0, 1⟩ ++ produce ⟨2, 0, 1⟩ ++ produce ⟨3, 0, 1⟩ ++ produce ⟨4, 0, 1⟩ ++
  produce ⟨5, 0, 1⟩ ++ [.prodSelect, .genReturn (some ⟨6, 0, 1⟩)]

/-- The state `fillTrace` ends in. -/
def fillState : State :=
  { cancelled := false, tickReady := false, prod := .sending ⟨6, 0, 1⟩,
    batchChannel := [⟨1, 0, 1⟩, ⟨2, 0, 1⟩, ⟨3, 0, 1⟩, ⟨4, 0, 1⟩, ⟨5, 0, 1⟩],
    disp := .select, tasks := [], mem := [], wg := 0, lines := 0, bytes := 0, errors := 0 }

/-- The context is cancelled while the producer holds a freshly generated batch. -/
def lateTrace : List Event := [.prodSelect, .genReturn (some ⟨7, 0, 1⟩), .cancel]

/-- The state `lateTrace` ends in. -/
def lateState : State :=
  { cancelled := true, tickReady := false, prod := .sending ⟨7, 0, 1⟩, batchChannel := [],
    disp := .select, tasks := [], mem := [], wg := 0, lines := 0, bytes := 0, errors := 0 }

/-- The state after the producer of `lateState` completes its enqueue. -/
def lateEnqueued : State := { lateState with prod := .check, batchChannel := [⟨7, 0, 1⟩] }

/-- The producer enters `Generate`, the context is cancelled and `Start` returns. -/
def orphanTrace : List Event := [.prodSelect, .cancel, .dispDone, .waitReturn]

/-- The state `orphanTrace` ends in. -/
def orphanState : State :=
  { cancelled := true, tickReady := false, prod := .generating, batchChannel := [],
    disp := .returned, tasks := [], mem := [], wg := 0, lines := 0, bytes := 0,
    errors := 0 }

/-- What the producer of `orphanState` still does after `Start` has returned. -/
def orphanRest : List Event := [.genReturn (some ⟨9, 0, 1⟩), .enqueue, .prodSelect]

/-- The state `orphanRest` leads to from `orphanState`. -/
def orphanEnd : State :=
  { orphanState with prod := .returned, batchChannel := [⟨9, 0, 1⟩] }

/-- A generator that only fails; the dispatch loop accepts a tick while the queue is
empty; the context is cancelled and the producer returns. -/
def stuckTrace : List Event :=
  [.prodSelect, .genReturn none, .tick, .dispTick, .prodSelect, .genReturn none,
   .cancel, .prodSelect]

/-- The state `stuckTrace` ends in. -/
def stuckState : State :=
  { cancelled := true, tickReady := false, prod := .returned, batchChannel := [],
    disp := .recv, tasks := [], mem := [], wg := 0, lines := 0, bytes := 0, errors := 0 }

/-- The largest rate `float64` does not represent: `2 ^ 53 + 1`. -/
def bigRate : Int := 9007199254740993

/-- One batch is dispatched and its goroutine executes line 68 while `Rate()` returns
`bigRate`. -/
def bigRateTrace : List Event :=
  produce ⟨1, 0, 3⟩ ++ [.tick, .dispTick, .dequeue, .wgAdd 0, .addLines 0 bigRate]

/-- The state `bigRateTrace` ends in: lines has grown by `2 ^ 53`, not by `bigRate`. -/
def bigRateState : State :=
  { cancelled := false, tickReady := false, prod := .check, batchChannel := [],
    disp := .select, tasks := [{ batch := ⟨1, 0, 3⟩, stage := .linesDone, failed := false }],
    mem := [], wg := 1, lines := 9007199254740992, bytes := 0, errors := 0 }

/-- Three batches of 3, 2 and 4 bytes are generated (with one failing `Generate` call in
between) and dispatched on three ticks with `Rate() = 100`.  Goroutine 0 runs to its end
and its `Send` fails; only then do goroutines 1 and 2 start, and goroutine 2 executes
line 68. -/
def mixedHead : List Event :=
  produce ⟨1, 0, 3⟩ ++ [.prodSelect, .genReturn none] ++ produce ⟨2, 0, 2⟩ ++
  produce ⟨3, 0, 4⟩ ++
  [.tick, .dispTick, .dequeue, .tick, .dispTick, .dequeue, .tick, .dispTick, .dequeue,
   .wgAdd 0, .addLines 0 100, .addBytes 0, .callSend 0 ⟨1, 0, 3⟩,
   .sendReturn 0 true, .incErrors 0, .wgDone 0,
   .wgAdd 1, .wgAdd 2, .addLines 2 100]

/-- The state `mixedHead` ends in when the counters start at 10, 20 and 30: one failure
is counted, goroutine 1 is about to execute line 68 and goroutine 2 line 69. -/
def mixedAdding : State :=
  { cancelled := false, tickReady := false, prod := .check, batchChannel := [],
    disp := .select,
    tasks := [{ batch := ⟨1, 0, 3⟩, stage := .done, failed := true },
              { batch := ⟨2, 0, 2⟩, stage := .added, failed := false },
              { batch := ⟨3, 0, 4⟩, stage := .linesDone, failed := false }],
    mem := [], wg := 2, lines := 210, bytes := 23, errors := 31 }

/-- Goroutines 1 and 2 go on to call `Send`, and the `Send` of goroutine 2 fails. -/
def mixedMiddle : List Event :=
  [.addLines 1 100, .addBytes 1, .addBytes 2, .callSend 1 ⟨2, 0, 2⟩, .callSend 2 ⟨3, 0, 4⟩,
   .sendReturn 2 true]

/-- The run `mixedHead` followed by `mixedMiddle`. -/
def mixedPartial : List Event := mixedHead ++ mixedMiddle

/-- The state `mixedPartial` ends in: a second `Send` has failed and line 72 has not run
for it yet. -/
def mixedFailing : State :=
  { mixedAdding with
    tasks := [{ batch := ⟨1, 0, 3⟩, stage := .done, failed := true },
              { batch := ⟨2, 0, 2⟩, stage := .inSend, failed := false },
              { batch := ⟨3, 0, 4⟩, stage := .sendFailed, failed := true }],
    lines := 310, bytes := 29 }

/-- The second failure is counted, the `Send` of goroutine 1 succeeds and both goroutines
complete. -/
def mixedTail : List Event := [.incErrors 2, .sendReturn 1 false, .wgDone 1, .wgDone 2]

/-- The whole run: `mixedHead`, `mixedMiddle`, `mixedTail`. -/
def mixedRun : List Event := mixedHead ++ mixedMiddle ++ mixedTail

/-- The state `mixedRun` ends in. -/
def mixedDone : State :=
  { mixedAdding with
    tasks := [{ batch := ⟨1, 0, 3⟩, stage := .done, failed := true },
              { batch := ⟨2, 0, 2⟩, stage := .done, failed := false },
              { batch := ⟨3, 0, 4⟩, stage := .done, failed := true }],
    wg := 0, lines := 310, bytes := 29, errors := 32 }

/-- A generator that allocates a fresh array for every batch: it stores 1, 2, 3 in array 1
and returns it, fails once, stores 9, 9 in array 2 and returns it.  Both batches are
dispatched; goroutine 0 calls `Send`, which fails, and goroutine 1 then starts. -/
def freshTrace : List Event :=
  [.prodSelect, .write 1 [1, 2, 3], .genReturn (some ⟨1, 0, 3⟩), .enqueue,
   .prodSelect, .genReturn none,
   .prodSelect, .write 2 [9, 9], .genReturn (some ⟨2, 0, 2⟩), .enqueue,
   .tick, .dispTick, .dequeue, .tick, .dispTick, .dequeue,
   .wgAdd 0, .addLines 0 100, .addBytes 0, .callSend 0 ⟨1, 0, 3⟩, .sendReturn 0 true,
   .wgAdd 1]

/-- The state `freshTrace` ends in. -/
def freshState : State :=
  { cancelled := false, tickReady := false, prod := .check, batchChannel := [],
    disp := .select,
    tasks := [{ batch := ⟨1, 0, 3⟩, stage := .sendFailed, failed := true },
              { batch := ⟨2, 0, 2⟩, stage := .added, failed := false }],
    mem := [(2, [9, 9]), (1, [1, 2, 3])], wg := 2, lines := 100, bytes := 3, errors := 0 }

/-- The batch a buffer-reusing generator returns: the 3 bytes of its one buffer, array 0. -/
def buffer : Batch := ⟨0, 0, 3⟩

/-- The generator fills its buffer with 1, 2, 3 and returns it; the batch is queued. -/
def reuseHead : List Event := [.prodSelect, .write 0 [1, 2, 3], .genReturn (some buffer), .enqueue]

/-- The state `reuseHead` ends in. -/
def reuseQueued : State :=
  { cancelled := false, tickReady := false, prod := .check, batchChannel := [buffer],
    disp := .select, tasks := [], mem := [(0, [1, 2, 3])], wg := 0, lines := 0, bytes := 0,
    errors := 0 }

/-- The next `Generate` call refills the same buffer with 9, 9, 9 while the first batch
is still queued; the first batch is then dispatched and handed to `Send`. -/
def reuseRest : List Event :=
  [.prodSelect, .write 0 [9, 9, 9], .tick, .dispTick, .dequeue,
   .wgAdd 0, .addLines 0 100, .addBytes 0, .callSend 0 buffer]

/-- The state `reuseRest` leads to from `reuseQueued`. -/
def reuseSent : State :=
  { cancelled := false, tickReady := false, prod := .generating, batchChannel := [],
    disp := .select, tasks := [{ batch := buffer, stage := .inSend, failed := false }],
    mem := [(0, [9, 9, 9]), (0, [1, 2, 3])], wg := 1, lines := 100, bytes := 3,
    errors := 0 }

/-! ## Executing runs -/

theorem run_cons_some {s s' : State} {e : Event} {es : List Event}
    (h : run s (e :: es) = some s') : ∃ m, step s e = some m ∧ run m es = some s' := by
  simpa [run, Option.bind_eq_some] using h

theorem run_invariant (P : State → Prop)
    (hstep : ∀ s e s', P s → step s e = some s' → P s') :
    ∀ (es : List Event) (s s' : State), P s → run s es = some s' → P s'
  | [], s, s', hP, h => by
    simp only [run, Option.some.injEq] at h
    exact h ▸ hP
  | e :: es, s, s', hP, h => by
    obtain ⟨m, hm, hrest⟩ := run_cons_some h
    exact run_invariant P hstep es m s' (hstep s e m hP hm) hrest

theorem run_append : ∀ (es₁ es₂ : List Event) (s s' : State),
    run s (es₁ ++ es₂) = some s' → ∃ m, run s es₁ = some m ∧ run m es₂ = some s'
  | [], es₂, s, s', h => ⟨s, rfl, h⟩
  | e :: es₁, es₂, s, s', h => by
    obtain ⟨m, hm, hrest⟩ := @run_cons_some s s' e (es₁ ++ es₂) h
    obtain ⟨m', h1, h2⟩ := run_append es₁ es₂ m s' hrest
    exact ⟨m', by simp [run, hm, h1], h2⟩

/-! ## The conversion to `float64` -/

theorem excessBits_of_lt (a fuel : Nat) (h : a < 2 ^ 53) : excessBits a fuel = 0 := by
  cases fuel with
  | zero => rfl
  | succ k => simp only [excessBits, if_pos h]

theorem roundNat_of_lt (a : Nat) (h : a < 2 ^ 53) : roundNat a = a := by
  simp [roundNat, excessBits_of_lt a 64 h, Nat.mod_one]

theorem float64_of_le (n : Int) (h0 : 0 ≤ n) (h : n ≤ 2 ^ 53) : float64 n = n := by
  have hn : (n.natAbs : Int) = n := Int.natAbs_of_nonneg h0
  rcases Nat.lt_or_ge n.natAbs (2 ^ 53) with hlt | hge
  · simp only [float64, if_pos h0, roundNat_of_lt _ hlt, hn]
  · have heq : n.natAbs = 2 ^ 53 := by omega
    have hr : roundNat (2 ^ 53) = 2 ^ 53 := by decide
    simp only [float64, if_pos h0, heq, hr]
    omega

/-! ## Lists of delivery goroutines -/

theorem sum_map_set (w : Task → Int) :
    ∀ (l : List Task) (i : Nat) (t : Task) (v : Int), l[i]? = some t →
      ((l.map w).set i v).sum = (l.map w).sum - w t + v
  | [], i, t, v, h => by simp at h
  | a :: l, 0, t, v, h => by
    simp only [List.getElem?_cons_zero, Option.some.injEq] at h
    subst h
    simp only [List.map_cons, List.set_cons_zero, List.sum_cons]
    omega
  | a :: l, i + 1, t, v, h => by
    simp only [List.getElem?_cons_succ] at h
    simp only [List.map_cons, List.set_cons_succ, List.sum_cons, sum_map_set w l i t v h]
    omega

theorem map_batch_set :
    ∀ (l : List Task) (i : Nat) (t : Task), l[i]? = some t →
      (l.map Task.batch).set i t.batch = l.map Task.batch
  | [], i, t, h => by simp at h
  | a :: l, 0, t, h => by
    simp only [List.getElem?_cons_zero, Option.some.injEq] at h
    subst h
    simp
  | a :: l, i + 1, t, h => by
    simp only [List.getElem?_cons_succ] at h
    simp [map_batch_set l i t h]

/-! ## What one step does to the pipeline -/

theorem step_pipeline (s s' : State) (e : Event) (h : step s e = some s') :
    pipeline s' = pipeline s ++ genOf e := by
  cases e <;> simp only [step] at h <;> (try split at h) <;> (try split at h) <;>
    (try split at h) <;> simp at h <;> subst h <;>
    simp_all [pipeline, held, genOf, map_batch_set]

theorem step_tasks_length (s s' : State) (e : Event) (h : step s e = some s') :
    s'.tasks.length = s.tasks.length + (if isDequeue e then 1 else 0) := by
  cases e <;> simp only [step] at h <;> (try split at h) <;> (try split at h) <;>
    (try split at h) <;> simp at h <;> subst h <;> simp [isDequeue]

theorem step_queue_le (s s' : State) (e : Event) (h : step s e = some s')
    (hq : s.batchChannel.length ≤ queueCap) : s'.batchChannel.length ≤ queueCap := by
  cases e <;> simp only [step] at h <;> (try split at h) <;> (try split at h) <;>
    (try split at h) <;> simp at h <;> subst h <;> simp_all <;> omega

theorem step_cancelled (s s' : State) (e : Event) (h : step s e = some s')
    (hc : s.cancelled = true) : s'.cancelled = true := by
  cases e <;> simp only [step] at h <;> (try split at h) <;> (try split at h) <;>
    (try split at h) <;> simp at h <;> subst h <;> simp_all

/-! ## What one step does to the counters -/

theorem step_lines (r : Int) (s s' : State) (e : Event) (h : step s e = some s')
    (hr : rateIs r e = true) :
    s'.lines - float64 r * total linesW s' = s.lines - float64 r * total linesW s := by
  cases e <;> simp only [step] at h <;> (try split at h) <;> (try split at h) <;>
    (try split at h) <;> simp at h <;> subst h <;>
    simp_all [total, linesW, sum_map_set, Stage.linesCounted, rateIs, counterAdd]
  ring

theorem step_bytes (s s' : State) (e : Event) (h : step s e = some s') :
    s'.bytes - total bytesW s' = s.bytes - total bytesW s := by
  cases e <;> simp only [step] at h <;> (try split at h) <;> (try split at h) <;>
    (try split at h) <;> simp at h <;> subst h <;>
    simp_all [total, bytesW, sum_map_set, Stage.bytesCounted, counterAdd]

theorem step_errors (s s' : State) (e : Event) (h : step s e = some s') :
    s'.errors + total pendingW s' =
      s.errors + total pendingW s + (if isSendError e then 1 else 0) := by
  cases e <;> simp only [step] at h <;> (try split at h) <;> (try split at h) <;>
    (try split at h) <;> simp at h <;> subst h <;>
    simp_all [total, pendingW, sum_map_set, isSendError, counterAdd]
  ring

theorem step_errors_genReturn (s s' : State) (r : Option Batch)
    (h : step s (.genReturn r) = some s') : s'.errors = s.errors := by
  simp only [step] at h
  split at h <;> (try split at h) <;> simp at h <;> subst h <;> rfl

theorem step_wg (s s' : State) (e : Event) (h : step s e = some s') :
    s'.wg - total wgW s' = s.wg - total wgW s := by
  cases e <;> simp only [step] at h <;> (try split at h) <;> (try split at h) <;>
    (try split at h) <;> simp at h <;> subst h <;>
    simp_all [total, wgW, sum_map_set, Stage.registered]

/-! ## What one step does to the two loops -/

theorem step_returned_cancelled (s s' : State) (e : Event) (h : step s e = some s')
    (hi : s.disp = .waiting ∨ s.disp = .returned → s.cancelled = true) :
    s'.disp = .waiting ∨ s'.disp = .returned → s'.cancelled = true := by
  cases e <;> simp only [step] at h <;> (try split at h) <;> (try split at h) <;>
    (try split at h) <;> simp at h <;> subst h <;> simp_all

theorem step_after_return (s s' : State) (e : Event) (h : step s e = some s')
    (hr : s.disp = .returned) :
    s'.disp = .returned ∧ isDispatch e = false ∧ s'.tasks.length = s.tasks.length := by
  cases e <;> simp only [step] at h <;> (try split at h) <;> (try split at h) <;>
    (try split at h) <;> simp at h <;> subst h <;> simp_all [isDispatch]

theorem step_enqBudget (s s' : State) (e : Event) (h : step s e = some s')
    (hc : s.cancelled = true) :
    enqBudget s'.prod + (if isEnqueue e then 1 else 0) ≤ enqBudget s.prod := by
  cases e <;> simp only [step] at h <;> (try split at h) <;> (try split at h) <;>
    (try split at h) <;> simp at h <;> subst h <;> simp_all [enqBudget, isEnqueue]

theorem step_genBudget (s s' : State) (e : Event) (h : step s e = some s')
    (hc : s.cancelled = true) :
    genBudget s'.prod + (if isGenReturn e then 1 else 0) ≤ genBudget s.prod := by
  cases e <;> simp only [step] at h <;> (try split at h) <;> (try split at h) <;>
    (try split at h) <;> simp at h <;> subst h <;> simp_all [genBudget, isGenReturn]

theorem step_stuck (s s' : State) (e : Event) (h : step s e = some s')
    (hi : s.disp = .recv ∧ s.batchChannel = [] ∧ s.prod = .returned) :
    s'.disp = .recv ∧ s'.batchChannel = [] ∧ s'.prod = .returned := by
  cases e <;> simp only [step] at h <;> (try split at h) <;> (try split at h) <;>
    (try split at h) <;> simp at h <;> subst h <;> simp_all

theorem step_stuck_dispatch (s s' : State) (e : Event) (h : step s e = some s')
    (hi : s.disp = .recv ∧ s.batchChannel = [] ∧ s.prod = .returned) :
    isDispatch e = false := by
  cases e <;> simp only [step] at h <;> (try split at h) <;> (try split at h) <;>
    (try split at h) <;> simp at h <;> subst h <;> simp_all [isDispatch]

/-! ## Runs -/

theorem run_pipeline : ∀ (es : List Event) (s s' : State), run s es = some s' →
    pipeline s' = pipeline s ++ genBatches es
  | [], s, s', h => by
    simp only [run, Option.some.injEq] at h
    simp [h, genBatches]
  | e :: es, s, s', h => by
    obtain ⟨m, hm, hrest⟩ := run_cons_some h
    rw [run_pipeline es m s' hrest, step_pipeline s m e hm, genBatches, List.append_assoc]

theorem run_tasks_length : ∀ (es : List Event) (s s' : State), run s es = some s' →
    s'.tasks.length = s.tasks.length + count isDequeue es
  | [], s, s', h => by
    simp only [run, Option.some.injEq] at h
    simp [h, count]
  | e :: es, s, s', h => by
    obtain ⟨m, hm, hrest⟩ := run_cons_some h
    have h1 := run_tasks_length es m s' hrest
    have h2 := step_tasks_length s m e hm
    simp only [count, List.countP_cons] at h1 ⊢
    omega

theorem run_queue_le (es : List Event) (s s' : State)
    (hq : s.batchChannel.length ≤ queueCap) (h : run s es = some s') :
    s'.batchChannel.length ≤ queueCap :=
  run_invariant (fun m => m.batchChannel.length ≤ queueCap)
    (fun a e b ha hab => step_queue_le a b e hab ha) es s s' hq h

theorem run_cancelled (es : List Event) (s s' : State) (hc : s.cancelled = true)
    (h : run s es = some s') : s'.cancelled = true :=
  run_invariant (fun m => m.cancelled = true)
    (fun a e b ha hab => step_cancelled a b e hab ha) es s s' hc h

theorem run_returned_cancelled (l0 b0 e0 : Counter) (es : List Event) (s : State)
    (h : run (init l0 b0 e0) es = some s) :
    s.disp = .waiting ∨ s.disp = .returned → s.cancelled = true :=
  run_invariant (fun m => m.disp = .waiting ∨ m.disp = .returned → m.cancelled = true)
    (fun a e b ha hab => step_returned_cancelled a b e hab ha) es _ s (by simp [init]) h

theorem run_lines (r : Int) : ∀ (es : List Event) (s s' : State), run s es = some s' →
    constRate r es = true →
    s'.lines - float64 r * total linesW s' = s.lines - float64 r * total linesW s
  | [], s, s', h, _ => by
    simp only [run, Option.some.injEq] at h
    rw [h]
  | e :: es, s, s', h, hr => by
    obtain ⟨m, hm, hrest⟩ := run_cons_some h
    simp only [constRate, List.all_cons, Bool.and_eq_true] at hr
    rw [run_lines r es m s' hrest hr.2, step_lines r s m e hm hr.1]

theorem run_bytes : ∀ (es : List Event) (s s' : State), run s es = some s' →
    s'.bytes - total bytesW s' = s.bytes - total bytesW s
  | [], s, s', h => by
    simp only [run, Option.some.injEq] at h
    rw [h]
  | e :: es, s, s', h => by
    obtain ⟨m, hm, hrest⟩ := run_cons_some h
    rw [run_bytes es m s' hrest, step_bytes s m e hm]

theorem run_wg : ∀ (es : List Event) (s s' : State), run s es = some s' →
    s'.wg - total wgW s' = s.wg - total wgW s
  | [], s, s', h => by
    simp only [run, Option.some.injEq] at h
    rw [h]
  | e :: es, s, s', h => by
    obtain ⟨m, hm, hrest⟩ := run_cons_some h
    rw [run_wg es m s' hrest, step_wg s m e hm]

theorem run_errors : ∀ (es : List Event) (s s' : State), run s es = some s' →
    s'.errors + total pendingW s' = s.errors + total pendingW s + count isSendError es
  | [], s, s', h => by
    simp only [run, Option.some.injEq] at h
    simp [h, count]
  | e :: es, s, s', h => by
    obtain ⟨m, hm, hrest⟩ := run_cons_some h
    have h1 := run_errors es m s' hrest
    have h2 := step_errors s m e hm
    simp only [count, List.countP_cons] at h1 ⊢
    split at h2 <;> simp_all
    ring

theorem run_after_return : ∀ (es : List Event) (s s' : State), run s es = some s' →
    s.disp = .returned →
    s'.disp = .returned ∧ count isDispatch es = 0 ∧ s'.tasks.length = s.tasks.length
  | [], s, s', h, hr => by
    simp only [run, Option.some.injEq] at h
    simp [← h, hr, count]
  | e :: es, s, s', h, hr => by
    obtain ⟨m, hm, hrest⟩ := run_cons_some h
    obtain ⟨h1, h2, h3⟩ := step_after_return s m e hm hr
    obtain ⟨k1, k2, k3⟩ := run_after_return es m s' hrest h1
    simp only [count] at k2 ⊢
    simp [k1, k2, k3, h2, h3]

theorem run_enqBudget : ∀ (es : List Event) (s s' : State), run s es = some s' →
    s.cancelled = true → enqBudget s'.prod + count isEnqueue es ≤ enqBudget s.prod
  | [], s, s', h, _ => by
    simp only [run, Option.some.injEq] at h
    simp [h, count]
  | e :: es, s, s', h, hc => by
    obtain ⟨m, hm, hrest⟩ := run_cons_some h
    have h1 := run_enqBudget es m s' hrest (step_cancelled s m e hm hc)
    have h2 := step_enqBudget s m e hm hc
    simp only [count, List.countP_cons] at h1 ⊢
    omega

theorem run_genBudget : ∀ (es : List Event) (s s' : State), run s es = some s' →
    s.cancelled = true → genBudget s'.prod + count isGenReturn es ≤ genBudget s.prod
  | [], s, s', h, _ => by
    simp only [run, Option.some.injEq] at h
    simp [h, count]
  | e :: es, s, s', h, hc => by
    obtain ⟨m, hm, hrest⟩ := run_cons_some h
    have h1 := run_genBudget es m s' hrest (step_cancelled s m e hm hc)
    have h2 := step_genBudget s m e hm hc
    simp only [count, List.countP_cons] at h1 ⊢
    omega

theorem run_stuck : ∀ (es : List Event) (s s' : State), run s es = some s' →
    s.disp = .recv ∧ s.batchChannel = [] ∧ s.prod = .returned →
    (s'.disp = .recv ∧ s'.batchChannel = [] ∧ s'.prod = .returned) ∧ count isDispatch es = 0
  | [], s, s', h, hi => by
    simp only [run, Option.some.injEq] at h
    simp [← h, hi, count]
  | e :: es, s, s', h, hi => by
    obtain ⟨m, hm, hrest⟩ := run_cons_some h
    obtain ⟨k1, k2⟩ := run_stuck es m s' hrest (step_stuck s m e hm hi)
    simp only [count] at k2 ⊢
    simp [k1, k2, step_stuck_dispatch s m e hm hi]

theorem enqBudget_le (p : ProdPC) : enqBudget p ≤ 1 := by
  cases p <;> simp [enqBudget]

theorem genBudget_le (p : ProdPC) : genBudget p ≤ 1 := by
  cases p <;> simp [genBudget]

theorem held_length_le (p : ProdPC) : (held p).length ≤ 1 := by
  cases p <;> simp [held]

/-! ## States in which every delivery goroutine has completed -/

theorem done_pending : ∀ (l : List Task), (l.all fun t => decide (t.stage = .done)) = true →
    (l.map pendingW).sum = 0
  | [], _ => by simp
  | t :: l, h => by
    simp only [List.all_cons, Bool.and_eq_true, decide_eq_true_eq] at h
    simp only [List.map_cons, List.sum_cons, done_pending l h.2]
    simp [pendingW, h.1]

theorem done_lines : ∀ (l : List Task), (l.all fun t => decide (t.stage = .done)) = true →
    (l.map linesW).sum = l.length
  | [], _ => by simp
  | t :: l, h => by
    simp only [List.all_cons, Bool.and_eq_true, decide_eq_true_eq] at h
    simp only [List.map_cons, List.sum_cons, done_lines l h.2, List.length_cons]
    simp [linesW, h.1, Stage.linesCounted]
    omega

theorem done_bytes : ∀ (l : List Task), (l.all fun t => decide (t.stage = .done)) = true →
    (l.map bytesW).sum = (l.map fun t => float64 t.batch.len).sum
  | [], _ => by simp
  | t :: l, h => by
    simp only [List.all_cons, Bool.and_eq_true, decide_eq_true_eq] at h
    simp only [List.map_cons, List.sum_cons, done_bytes l h.2]
    simp [bytesW, h.1, Stage.bytesCounted]

theorem init_total (w : Task → Int) (l0 b0 e0 : Counter) : total w (init l0 b0 e0) = 0 := rfl

theorem init_pipeline (l0 b0 e0 : Counter) : pipeline (init l0 b0 e0) = [] := rfl

theorem length_pipeline (s : State) :
    (pipeline s).length = s.tasks.length + s.batchChannel.length + (held s.prod).length := by
  simp [pipeline, Nat.add_assoc]

theorem done_sizes (l : List Task) (h : ∀ t ∈ l, (t.batch.len : Int) ≤ 2 ^ 53) :
    (l.map bytesW).sum = (l.map sizeW).sum := by
  induction l with
  | nil => rfl
  | cons t l ih =>
    have ht : float64 t.batch.len = t.batch.len :=
      float64_of_le _ (Int.ofNat_nonneg _) (h t (List.mem_cons_self t l))
    simp only [List.map_cons, List.sum_cons, ih fun u hu => h u (List.mem_cons_of_mem t hu)]
    simp [bytesW, sizeW, ht]

theorem done_sizeW : ∀ (l : List Task), (l.all fun t => decide (t.stage = .done)) = true →
    (l.map sizeW).sum = (l.map fun t => (t.batch.len : Int)).sum
  | [], _ => by simp
  | t :: l, h => by
    simp only [List.all_cons, Bool.and_eq_true, decide_eq_true_eq] at h
    simp only [List.map_cons, List.sum_cons, done_sizeW l h.2]
    simp [sizeW, h.1, Stage.bytesCounted]

/-! ## Memory, the error counter and the calls of `Send` -/

theorem step_readArr (a : Nat) (s s' : State) (e : Event) (h : step s e = some s')
    (hw : writesTo a e = false) : readArr s'.mem a = readArr s.mem a := by
  cases e <;> simp only [step] at h <;> (try split at h) <;> (try split at h) <;>
    (try split at h) <;> simp at h <;> subst h <;> simp_all [writesTo, readArr]

theorem run_readArr (a : Nat) : ∀ (es : List Event) (s s' : State), run s es = some s' →
    count (writesTo a) es = 0 → readArr s'.mem a = readArr s.mem a
  | [], s, s', h, _ => by
    simp only [run, Option.some.injEq] at h
    rw [h]
  | e :: es, s, s', h, hw => by
    obtain ⟨m, hm, hrest⟩ := run_cons_some h
    simp only [count, List.countP_cons] at hw
    have he : writesTo a e = false := by
      cases hc : writesTo a e
      · rfl
      · simp [hc] at hw
    have hes : count (writesTo a) es = 0 := by
      simp only [count]
      omega
    rw [run_readArr a es m s' hrest hes, step_readArr a s m e hm he]

theorem step_errors_delta (s s' : State) (e : Event) (h : step s e = some s') :
    s'.errors = s.errors + (if isIncErrors e then 1 else 0) := by
  cases e <;> simp only [step] at h <;> (try split at h) <;> (try split at h) <;>
    (try split at h) <;> simp at h <;> subst h <;> simp [isIncErrors, counterAdd]

theorem run_errors_delta : ∀ (es : List Event) (s s' : State), run s es = some s' →
    s'.errors = s.errors + (count isIncErrors es : Int)
  | [], s, s', h => by
    simp only [run, Option.some.injEq] at h
    simp [h, count]
  | e :: es, s, s', h => by
    obtain ⟨m, hm, hrest⟩ := run_cons_some h
    have h1 := run_errors_delta es m s' hrest
    have h2 := step_errors_delta s m e hm
    simp only [count, List.countP_cons] at h1 ⊢
    rw [h1, h2]
    cases isIncErrors e
    · simp
    · simp only [if_true, Nat.cast_add, Nat.cast_one]
      ring

theorem genBatches_append : ∀ (es₁ es₂ : List Event),
    genBatches (es₁ ++ es₂) = genBatches es₁ ++ genBatches es₂
  | [], _ => rfl
  | e :: es₁, es₂ => by
    show genOf e ++ genBatches (es₁ ++ es₂) = genBatches (e :: es₁) ++ genBatches es₂
    rw [genBatches_append es₁ es₂, genBatches, List.append_assoc]

theorem run_task_batch (l0 b0 e0 : Counter) (es : List Event) (s : State)
    (h : run (init l0 b0 e0) es = some s) (k : Nat) (t : Task) (hk : s.tasks[k]? = some t) :
    (genBatches es)[k]? = some t.batch := by
  have hp := run_pipeline es _ s h
  rw [init_pipeline, List.nil_append] at hp
  have hlt : k < s.tasks.length := by
    rcases Nat.lt_or_ge k s.tasks.length with hlt | hge
    · exact hlt
    · rw [List.getElem?_eq_none hge] at hk
      cases hk
  rw [← hp, pipeline, List.append_assoc,
    List.getElem?_append_left (by simpa using hlt), List.getElem?_map, hk]
  rfl

theorem step_callSend (s s' : State) (k : Nat) (b : Batch)
    (h : step s (.callSend k b) = some s') :
    ∃ t, s.tasks[k]? = some t ∧ t.stage = .bytesDone ∧ b = t.batch := by
  simp only [step] at h
  split at h
  · rename_i t ht
    split at h
    · rename_i hc
      exact ⟨t, ht, hc.1, hc.2⟩
    · cases h
  · cases h

theorem getElem?_append_some {α : Type} (l₁ l₂ : List α) (k : Nat) (a : α)
    (h : l₁[k]? = some a) : (l₁ ++ l₂)[k]? = some a := by
  have hlt : k < l₁.length := by
    rcases Nat.lt_or_ge k l₁.length with hlt | hge
    · exact hlt
    · rw [List.getElem?_eq_none hge] at h
      cases h
  rw [List.getElem?_append_left hlt, h]

theorem run_callSend (l0 b0 e0 : Counter) (es : List Event) (s : State)
    (h : run (init l0 b0 e0) es = some s) (k : Nat) (b : Batch)
    (hmem : Event.callSend k b ∈ es) : (genBatches es)[k]? = some b := by
  obtain ⟨es₁, es₂, rfl⟩ := List.append_of_mem hmem
  obtain ⟨m, h1, h2⟩ := run_append es₁ _ _ s h
  obtain ⟨m', hstep, _⟩ := run_cons_some h2
  obtain ⟨t, ht, _, hb⟩ := step_callSend m m' k b hstep
  rw [genBatches_append, hb]
  exact getElem?_append_some _ _ k _ (run_task_batch l0 b0 e0 es₁ m h1 k t ht)

theorem getElem?_set_same (l : List Task) (k : Nat) (t t' : Task) (h : l[k]? = some t) :
    (l.set k t')[k]? = some t' := by
  have hlt : k < l.length := by
    rcases Nat.lt_or_ge k l.length with hlt | hge
    · exact hlt
    · rw [List.getElem?_eq_none hge] at h
      cases h
  simp [List.getElem?_set, hlt]

theorem run_toSend (s : State) (k : Nat) (rate : Int) (t : Task) (hk : s.tasks[k]? = some t) :
    ∃ s' t', run s (toSend k rate t.batch t.stage) = some s' ∧ s'.tasks[k]? = some t' ∧
      t'.batch = t.batch ∧ t'.stage.calledSend = true := by
  cases hs : t.stage <;>
    simp [toSend, run, step, hk, hs, getElem?_set_same s.tasks k t _ hk, Stage.calledSend,
      getElem?_set_same _ k _ _ (getElem?_set_same s.tasks k t _ hk)]

theorem sentAt_set (s : State) (i k : Nat) (t t' : Task) (hi : s.tasks[i]? = some t)
    (tasks' : List Task) (ht : tasks' = s.tasks.set i t') (s' : State)
    (hs : s'.tasks = tasks') :
    sentAt k s' = if i = k then (if t'.stage.calledSend then 1 else 0) else sentAt k s := by
  subst ht
  by_cases hik : i = k
  · subst hik
    simp [sentAt, hs, getElem?_set_same s.tasks i t t' hi]
  · simp [sentAt, hs, List.getElem?_set, hik]

theorem step_sentAt (k : Nat) (s s' : State) (e : Event) (h : step s e = some s') :
    sentAt k s' = sentAt k s + (if callsOf k e then 1 else 0) := by
  cases e <;> simp only [step] at h <;> (try split at h) <;> (try split at h) <;>
    (try split at h) <;> simp at h <;> subst h <;>
    (try simp [sentAt, callsOf]; done)
  all_goals first
    | (rw [sentAt_set s _ k _ _ (by assumption) _ rfl _ rfl]
       split <;> simp_all [sentAt, callsOf, Stage.calledSend])
    | (simp only [sentAt, callsOf]
       rcases Nat.lt_trichotomy k s.tasks.length with hlt | heq | hgt
       · simp [List.getElem?_append_left hlt]
       · subst heq
         simp [Stage.calledSend]
       · have h1 : s.tasks.length ≤ k := by omega
         have h2 : ∀ t : Task, (s.tasks ++ [t])[k]? = none := by
           intro t
           apply List.getElem?_eq_none
           simp only [List.length_append, List.length_singleton]
           omega
         simp [List.getElem?_eq_none h1, h2])

theorem run_sentAt (k : Nat) : ∀ (es : List Event) (s s' : State), run s es = some s' →
    sentAt k s' = sentAt k s + count (callsOf k) es
  | [], s, s', h => by
    simp only [run, Option.some.injEq] at h
    simp [h, count]
  | e :: es, s, s', h => by
    obtain ⟨m, hm, hrest⟩ := run_cons_some h
    have h1 := run_sentAt k es m s' hrest
    have h2 := step_sentAt k s m e hm
    simp only [count, List.countP_cons] at h1 ⊢
    omega

theorem sentAt_le (k : Nat) (s : State) : sentAt k s ≤ 1 := by
  simp only [sentAt]
  split
  · split <;> omega
  · omega

/-! ## The claims -/

/-- C1 (the code breaks it): `Start` can return while a delivery goroutine it has spawned
has not completed, because `wg.Add(1)` (line 65) runs inside the goroutine instead of
before the `go` statement.  In `raceTrace` the goroutine is spawned, the context is
cancelled, `wg.Wait()` sees the counter at 0 and `Start` returns; the goroutine has not
called `Send` yet, and calls it afterwards. -/
theorem start_returns_before_spawned_task_completes :
    run (init 0 0 0) raceTrace = some raceState ∧
    startReturned raceState = true ∧
    raceState.tasks.map Task.stage = [Stage.started] ∧
    allDone raceState = false ∧
    run raceState raceRest = some raceLateState ∧
    startReturned raceLateState = true ∧
    raceLateState.tasks.map Task.stage = [Stage.inSend] := by
  decide

/-- C2 as stated fails: in `bigRateTrace` `Rate()` constantly returns `2 ^ 53 + 1` and one
delivery goroutine has executed line 68, which adds `float64(Rate())`; the lines counter
has grown by `2 ^ 53`, not by `Rate()`. -/
theorem lines_add_rounds_big_rate :
    run (init 0 0 0) bigRateTrace = some bigRateState ∧
    constRate bigRate bigRateTrace = true ∧
    bigRate = 2 ^ 53 + 1 ∧
    bigRateState.tasks.map Task.stage = [Stage.linesDone] ∧
    bigRateState.lines = 2 ^ 53 ∧
    bigRateState.lines ≠ 0 + bigRate * 1 := by
  decide

/-- C2, amended: in every run in which `Rate()` constantly returns `r` with
`0 ≤ r ≤ 2 ^ 53` and no dispatched batch is longer than `2 ^ 53` bytes, the lines counter
has grown by `r` for every delivery goroutine that has passed line 68 and the bytes counter
by the size of the batch of every goroutine that has passed line 69.  In the state
reached, a goroutine standing at line 68 can execute it and adds exactly `r`, one standing
at line 69 can execute it and adds exactly the size of its batch, whatever happened to
the `Send` calls of other goroutines; `Send` is only called by a goroutine that has
executed both lines, and its return, with or without an error, changes neither counter.
Once the `k` spawned goroutines have completed, lines has grown by `k * r` and bytes by
the sum of the batch sizes. -/
theorem counters_reflect_attempts (l0 b0 e0 : Counter) (r : Int) (es : List Event)
    (s : State) (h : run (init l0 b0 e0) es = some s) (hr : constRate r es = true)
    (h0 : 0 ≤ r) (h53 : r ≤ 2 ^ 53) (hlen : ∀ t ∈ s.tasks, (t.batch.len : Int) ≤ 2 ^ 53) :
    s.lines = l0 + r * total linesW s ∧
    s.bytes = b0 + total sizeW s ∧
    (∀ (i : Nat) (t : Task), s.tasks[i]? = some t → t.stage = .added →
      step s (.addLines i r) =
        some { s with
               tasks := s.tasks.set i { t with stage := .linesDone }
               lines := s.lines + r }) ∧
    (∀ (i : Nat) (t : Task), s.tasks[i]? = some t → t.stage = .linesDone →
      step s (.addBytes i) =
        some { s with
               tasks := s.tasks.set i { t with stage := .bytesDone }
               bytes := s.bytes + (t.batch.len : Int) }) ∧
    (∀ (i : Nat) (b : Batch) (m : State), step s (.callSend i b) = some m →
      ∃ t, s.tasks[i]? = some t ∧ t.stage.linesCounted = true ∧
        t.stage.bytesCounted = true) ∧
    (∀ (i : Nat) (err : Bool) (m : State), step s (.sendReturn i err) = some m →
      m.lines = s.lines ∧ m.bytes = s.bytes) ∧
    (allDone s = true →
      s.lines = l0 + r * (s.tasks.length : Int) ∧
      s.bytes = b0 + (s.tasks.map fun t => (t.batch.len : Int)).sum) := by
  have hf : float64 r = r := float64_of_le r h0 h53
  have hl := run_lines r es _ s h hr
  have hb := run_bytes es _ s h
  rw [init_total] at hl hb
  rw [hf] at hl
  have hl' : s.lines = l0 + r * total linesW s := by
    simp only [init] at hl
    linarith
  have hsz : total bytesW s = total sizeW s := done_sizes s.tasks hlen
  have hb' : s.bytes = b0 + total sizeW s := by
    simp only [init] at hb
    rw [← hsz]
    linarith
  refine ⟨hl', hb', ?_, ?_, ?_, ?_, ?_⟩
  · intro i t hi hst
    simp only [step, hi, hst, if_true, counterAdd, hf]
  · intro i t hi hst
    have hft : float64 t.batch.len = t.batch.len :=
      float64_of_le _ (Int.ofNat_nonneg _) (hlen t (List.getElem?_mem hi))
    simp only [step, hi, hst, if_true, counterAdd, hft]
  · intro i b m hm
    obtain ⟨t, ht, hst, _⟩ := step_callSend s m i b hm
    exact ⟨t, ht, by simp [hst, Stage.linesCounted], by simp [hst, Stage.bytesCounted]⟩
  · intro i err m hm
    simp only [step] at hm
    split at hm <;> (try split at hm) <;> (try split at hm) <;> simp at hm <;> subst hm <;>
      exact ⟨rfl, rfl⟩
  · intro hd
    rw [hl', hb']
    simp only [total, allDone] at *
    rw [done_lines _ hd, done_sizeW _ hd]
    exact ⟨rfl, rfl⟩

/-- Witness for C2, amended: the run `mixedHead`, after which two goroutines stand before
their additions although a `Send` has already failed, and the complete run `mixedRun`. -/
theorem counters_reflect_attempts_witness :
    (run (init 10 20 30) mixedHead = some mixedAdding ∧ constRate 100 mixedHead = true ∧
     (0 : Int) ≤ 100 ∧ (100 : Int) ≤ 2 ^ 53 ∧
     (∀ t ∈ mixedAdding.tasks, (t.batch.len : Int) ≤ 2 ^ 53) ∧
     (
mixedAdding.lines = 10 + 100 * total linesW mixedAdding ∧
      mixedAdding.bytes = 20 + total sizeW mixedAdding ∧
      (∀ (i : Nat) (t : Task), mixedAdding.tasks[i]? = some t → t.stage = .added →
        step mixedAdding (.addLines i 100) =
          some { mixedAdding with
                 tasks := mixedAdding.tasks.set i { t with stage := .linesDone }
                 lines := mixedAdding.lines + 100 }) ∧
      (∀ (i : Nat) (t : Task), mixedAdding.tasks[i]? = some t → t.stage = .linesDone →
        step mixedAdding (.addBytes i) =
          some { mixedAdding with
                 tasks := mixedAdding.tasks.set i { t with stage := .bytesDone }
                 bytes := mixedAdding.bytes + (t.batch.len : Int) }) ∧
      (∀ (i : Nat) (b : Batch) (m : State), step mixedAdding (.callSend i b) = some m →
        ∃ t, mixedAdding.tasks[i]? = some t ∧ t.stage.linesCounted = true ∧
          t.stage.bytesCounted = true) ∧
      (∀ (i : Nat) (err : Bool) (m : State), step mixedAdding (.sendReturn i err) = some m →
        m.lines = mixedAdding.lines ∧ m.bytes = mixedAdding.bytes) ∧
      (allDone mixedAdding = true →
        mixedAdding.lines = 10 + 100 * (mixedAdding.tasks.length : Int) ∧
        mixedAdding.bytes = 20 + (mixedAdding.tasks.map fun t => (t.batch.len : Int)).sum))) ∧
    (run (init 10 20 30) mixedRun = some mixedDone ∧ constRate 100 mixedRun = true ∧
     (∀ t ∈ mixedDone.tasks, (t.batch.len : Int) ≤ 2 ^ 53) ∧
     (
mixedDone.lines = 10 + 100 * total linesW mixedDone ∧
      mixedDone.bytes = 20 + total sizeW mixedDone ∧
      (∀ (i : Nat) (t : Task), mixedDone.tasks[i]? = some t → t.stage = .added →
        step mixedDone (.addLines i 100) =
          some { mixedDone with
                 tasks := mixedDone.tasks.set i { t with stage := .linesDone }
                 lines := mixedDone.lines + 100 }) ∧
      (∀ (i : Nat) (t : Task), mixedDone.tasks[i]? = some t → t.stage = .linesDone →
        step mixedDone (.addBytes i) =
          some { mixedDone with
                 tasks := mixedDone.tasks.set i { t with stage := .bytesDone }
                 bytes := mixedDone.bytes + (t.batch.len : Int) }) ∧
      (∀ (i : Nat) (b : Batch) (m : State), step mixedDone (.callSend i b) = some m →
        ∃ t, mixedDone.tasks[i]? = some t ∧ t.stage.linesCounted = true ∧
          t.stage.bytesCounted = true) ∧
      (∀ (i : Nat) (err : Bool) (m : State), step mixedDone (.sendReturn i err) = some m →
        m.lines = mixedDone.lines ∧ m.bytes = mixedDone.bytes) ∧
      (allDone mixedDone = true →
        mixedDone.lines = 10 + 100 * (mixedDone.tasks.length : Int) ∧
        mixedDone.bytes = 20 + (mixedDone.tasks.map fun t => (t.batch.len : Int)).sum))) :=
  ⟨⟨by decide, by decide, by decide, by decide, by decide,
    counters_reflect_attempts 10 20 30 100 mixedHead mixedAdding (by decide) (by decide)
      (by decide) (by decide) (by decide)⟩,
   ⟨by decide, by decide, by decide,
    counters_reflect_attempts 10 20 30 100 mixedRun mixedDone (by decide) (by decide)
      (by decide) (by decide) (by decide)⟩⟩

/-- C3: in every run the error counter has grown by exactly 1 for each execution of
line 72, and the executions of line 72 plus the goroutines whose `Send` has failed and
that have not reached line 72 yet are exactly the `Send` calls that returned an error.  In
the state reached, a goroutine whose `Send` has failed can execute line 72 and adds exactly
1, however many failures were counted before.  Once all spawned goroutines have completed,
the counter has grown by exactly the number of failed `Send` calls.  No other action
changes the counter: not a `Send` returning nil, not a `Generate` call returning, with an
error or not. -/
theorem errors_count_failed_sends (l0 b0 e0 : Counter) (es : List Event) (s : State)
    (h : run (init l0 b0 e0) es = some s) :
    s.errors = e0 + (count isIncErrors es : Int) ∧
    (count isIncErrors es : Int) + total pendingW s = (count isSendError es : Int) ∧
    (∀ (i : Nat) (t : Task), s.tasks[i]? = some t → t.stage = .sendFailed →
      step s (.incErrors i) =
        some { s with
               tasks := s.tasks.set i { t with stage := .finishing }
               errors := s.errors + 1 }) ∧
    (allDone s = true → s.errors = e0 + (count isSendError es : Int)) ∧
    (∀ (m m' : State) (e : Event), step m e = some m' →
      m'.errors = m.errors + (if isIncErrors e then 1 else 0)) ∧
    (∀ (m m' : State) (r : Option Batch),
      step m (.genReturn r) = some m' → m'.errors = m.errors) := by
  have hd := run_errors_delta es _ s h
  have he := run_errors es _ s h
  rw [init_total] at he
  simp only [init] at hd he
  refine ⟨hd, by linarith, ?_, ?_, step_errors_delta, step_errors_genReturn⟩
  · intro i t hi hst
    simp only [step, hi, hst, if_true, counterAdd]
  · intro hdone
    have hp : total pendingW s = 0 := done_pending _ hdone
    rw [hp] at he
    linarith

/-- Witness for C3: the run `mixedPartial`, after which one failure is counted
and a second `Send` has failed with line 72 still to run, and the complete run `mixedRun`
with its two failed `Send` calls and one failed `Generate` call. -/
theorem errors_count_failed_sends_witness :
    (run (init 10 20 30) mixedPartial = some mixedFailing ∧
     (
mixedFailing.errors = 30 + (count isIncErrors mixedPartial : Int) ∧
      (count isIncErrors mixedPartial : Int) + total pendingW mixedFailing =
        (count isSendError mixedPartial : Int) ∧
      (∀ (i : Nat) (t : Task), mixedFailing.tasks[i]? = some t → t.stage = .sendFailed →
        step mixedFailing (.incErrors i) =
          some { mixedFailing with
                 tasks := mixedFailing.tasks.set i { t with stage := .finishing }
                 errors := mixedFailing.errors + 1 }) ∧
      (allDone mixedFailing = true →
        mixedFailing.errors = 30 + (count isSendError mixedPartial : Int)) ∧
      (∀ (m m' : State) (e : Event), step m e = some m' →
        m'.errors = m.errors + (if isIncErrors e then 1 else 0)) ∧
      (∀ (m m' : State) (r : Option Batch),
        step m (.genReturn r) = some m' → m'.errors = m.errors))) ∧
    (run (init 10 20 30) mixedRun = some mixedDone ∧
     (
mixedDone.errors = 30 + (count isIncErrors mixedRun : Int) ∧
      (count isIncErrors mixedRun : Int) + total pendingW mixedDone =
        (count isSendError mixedRun : Int) ∧
      (∀ (i : Nat) (t : Task), mixedDone.tasks[i]? = some t → t.stage = .sendFailed →
        step mixedDone (.incErrors i) =
          some { mixedDone with
                 tasks := mixedDone.tasks.set i { t with stage := .finishing }
                 errors := mixedDone.errors + 1 }) ∧
      (allDone mixedDone = true → mixedDone.errors = 30 + (count isSendError mixedRun : Int)) ∧
      (∀ (m m' : State) (e : Event), step m e = some m' →
        m'.errors = m.errors + (if isIncErrors e then 1 else 0)) ∧
      (∀ (m m' : State) (r : Option Batch),
        step m (.genReturn r) = some m' → m'.errors = m.errors))) :=
  ⟨⟨by decide,
    errors_count_failed_sends 10 20 30 mixedPartial mixedFailing (by decide)⟩,
   ⟨by decide, errors_count_failed_sends 10 20 30 mixedRun mixedDone (by decide)⟩⟩

/-- C4 as stated fails: `Start` queues the slice `Generate` returned without copying its
bytes.  In `reuseHead` the generator returns its buffer holding 1, 2, 3 and the batch is
queued; in `reuseRest` the next `Generate` call refills the same buffer, and the first
goroutine then calls `Send` with a batch whose bytes are 9, 9, 9. -/
theorem reused_buffer_changes_queued_batch :
    run (init 0 0 0) reuseHead = some reuseQueued ∧
    genBatches reuseHead = [buffer] ∧
    contents reuseQueued.mem buffer = [1, 2, 3] ∧
    run reuseQueued reuseRest = some reuseSent ∧
    Event.callSend 0 buffer ∈ reuseRest ∧
    reuseSent.tasks = [{ batch := buffer, stage := .inSend, failed := false }] ∧
    contents reuseSent.mem buffer = [9, 9, 9] := by
  decide

/-- C4, amended: in every run the dispatch loop has spawned exactly one delivery goroutine
per processed tick, and the slices returned by the successful `Generate` calls, in order,
are the slices of the spawned goroutines in spawn order, followed by the queue, followed
by the slice the producer holds, whatever `Generate` failures are interleaved.  Every
`Send` call made in the run by goroutine `k` was made with the `k`-th returned slice (same
backing array, offset and length); a goroutine calls `Send` at most once; and in the state
reached every spawned goroutine that has not called `Send` yet can take its steps up to
that call, with its own slice, whatever happened to the other goroutines.  `Start` itself
never writes to a backing array: over any continuation in which no code outside `Start`
writes to the backing array of a slice, the bytes of that slice stay what they are. -/
theorem dispatch_is_fifo (l0 b0 e0 : Counter) (es : List Event) (s : State)
    (h : run (init l0 b0 e0) es = some s) :
    s.tasks.length = count isDequeue es ∧
    genBatches es = s.tasks.map Task.batch ++ (s.batchChannel ++ held s.prod) ∧
    (∀ (k : Nat) (t : Task), s.tasks[k]? = some t → (genBatches es)[k]? = some t.batch) ∧
    (∀ (k : Nat) (b : Batch), Event.callSend k b ∈ es → (genBatches es)[k]? = some b) ∧
    (∀ k : Nat, count (callsOf k) es = sentAt k s ∧ sentAt k s ≤ 1) ∧
    (∀ (k : Nat) (t : Task) (rate : Int), s.tasks[k]? = some t →
      ∃ m u, run s (toSend k rate t.batch t.stage) = some m ∧ m.tasks[k]? = some u ∧
        u.batch = t.batch ∧ u.stage.calledSend = true) ∧
    (∀ (es' : List Event) (m : State) (b : Batch), run s es' = some m →
      count (writesTo b.arr) es' = 0 → contents m.mem b = contents s.mem b) := by
  have hp := run_pipeline es _ s h
  rw [init_pipeline, List.nil_append] at hp
  have hg : genBatches es = s.tasks.map Task.batch ++ (s.batchChannel ++ held s.prod) := by
    rw [← hp, pipeline, List.append_assoc]
  have hn := run_tasks_length es _ s h
  have hsent := fun k => run_sentAt k es _ s h
  refine ⟨by simpa [init] using hn, hg, run_task_batch l0 b0 e0 es s h,
    run_callSend l0 b0 e0 es s h, ?_, ?_, ?_⟩
  · intro k
    have hk := hsent k
    have h0 : sentAt k (init l0 b0 e0) = 0 := rfl
    exact ⟨by omega, sentAt_le k s⟩
  · intro k t rate hk
    exact run_toSend s k rate t hk
  · intro es' m b hm hw
    simp only [contents, run_readArr b.arr es' s m hm hw]

/-- Witness for C4, amended: the run `freshTrace`, with two generated slices in fresh
arrays, one failed `Generate` call, two processed ticks, one goroutine whose `Send` call
has failed and one that has not called `Send` yet. -/
theorem dispatch_is_fifo_witness :
    run (init 0 0 0) freshTrace = some freshState ∧
    (
freshState.tasks.length = count isDequeue freshTrace ∧
     genBatches freshTrace =
       freshState.tasks.map Task.batch ++ (freshState.batchChannel ++ held freshState.prod) ∧
     (∀ (k : Nat) (t : Task), freshState.tasks[k]? = some t →
       (genBatches freshTrace)[k]? = some t.batch) ∧
     (∀ (k : Nat) (b : Batch), Event.callSend k b ∈ freshTrace →
       (genBatches freshTrace)[k]? = some b) ∧
     (∀ k : Nat, count (callsOf k) freshTrace = sentAt k freshState ∧ sentAt k freshState ≤ 1) ∧
     (∀ (k : Nat) (t : Task) (rate : Int), freshState.tasks[k]? = some t →
       ∃ m u, run freshState (toSend k rate t.batch t.stage) = some m ∧ m.tasks[k]? = some u ∧
         u.batch = t.batch ∧ u.stage.calledSend = true) ∧
     (∀ (es' : List Event) (m : State) (b : Batch), run freshState es' = some m →
       count (writesTo b.arr) es' = 0 → contents m.mem b = contents freshState.mem b)) :=
  ⟨by decide, dispatch_is_fifo 0 0 0 freshTrace freshState (by decide)⟩

/-- C5 as stated fails: in `stallTrace` the generator always succeeds, the only delivery
goroutine stays inside `Send` and no `Send` call ever returns, yet a seventh `Generate`
call completes, because the dispatch loop keeps dequeuing one batch per tick. -/
theorem send_stall_does_not_block_producer :
    run (init 0 0 0) stallTrace = some stallState ∧
    count isSendReturn stallTrace = 0 ∧
    count isGenError stallTrace = 0 ∧
    stallState.tasks.map Task.stage = [Stage.inSend] ∧
    (genBatches stallTrace).length = 7 := by
  decide

/-- C5, amended: in every run the number of successful `Generate` calls is at most the
number of batches the dispatch loop has dequeued plus 6 (capacity 5 plus the batch held
by the producer), whether or not `Send` completes; and when it is exactly 6 ahead, the
production loop is blocked: none of its actions is enabled. -/
theorem producer_blocks_six_ahead_of_dispatch (l0 b0 e0 : Counter) (es : List Event)
    (s : State) (h : run (init l0 b0 e0) es = some s) :
    (genBatches es).length ≤ count isDequeue es + (queueCap + 1) ∧
    ((genBatches es).length = count isDequeue es + (queueCap + 1) →
      step s .prodSelect = none ∧ step s .enqueue = none ∧
      ∀ r, step s (.genReturn r) = none) := by
  have hp := run_pipeline es _ s h
  rw [init_pipeline, List.nil_append] at hp
  have hlen := length_pipeline s
  rw [hp] at hlen
  have hn := run_tasks_length es _ s h
  simp only [init, List.length_nil, Nat.zero_add] at hn
  have hq := run_queue_le es _ s (by simp [init]) h
  have hh := held_length_le s.prod
  refine ⟨by omega, ?_⟩
  intro heq
  have hq5 : s.batchChannel.length = queueCap := by omega
  have hh1 : (held s.prod).length = 1 := by omega
  cases hprod : s.prod <;> rw [hprod] at hh1 <;> simp [held] at hh1
  simp [step, hprod, hq5]

/-- Witness for C5, amended: the run `fillTrace`, six batches ahead with no dequeue. -/
theorem producer_blocks_six_ahead_of_dispatch_witness :
    run (init 0 0 0) fillTrace = some fillState ∧
    ((genBatches fillTrace).length ≤ count isDequeue fillTrace + (queueCap + 1) ∧
     ((genBatches fillTrace).length = count isDequeue fillTrace + (queueCap + 1) →
       step fillState .prodSelect = none ∧ step fillState .enqueue = none ∧
       ∀ r, step fillState (.genReturn r) = none)) :=
  ⟨by decide, producer_blocks_six_ahead_of_dispatch 0 0 0 fillTrace fillState (by decide)⟩

/-- C6: in every run, whatever `Generate` and `Send` return, `Start` has returned only if
the context has been cancelled. -/
theorem start_returns_only_after_cancel (l0 b0 e0 : Counter) (es : List Event) (s : State)
    (h : run (init l0 b0 e0) es = some s) (hr : startReturned s = true) :
    s.cancelled = true := by
  simp only [startReturned, decide_eq_true_eq] at hr
  exact run_returned_cancelled l0 b0 e0 es s h (Or.inr hr)

/-- Witness for C6: the run `raceTrace`, which ends with `Start` returned. -/
theorem start_returns_only_after_cancel_witness :
    run (init 0 0 0) raceTrace = some raceState ∧ startReturned raceState = true ∧
    raceState.cancelled = true :=
  ⟨by decide, by decide,
   start_returns_only_after_cancel 0 0 0 raceTrace raceState (by decide) (by decide)⟩

/-- C7 as stated fails: in `lateTrace` the context is cancelled while the producer holds a
generated batch, and the enqueue of line 43 still happens afterwards. -/
theorem enqueue_after_cancel :
    run (init 0 0 0) lateTrace = some lateState ∧
    lateState.cancelled = true ∧ lateState.batchChannel = [] ∧
    step lateState .enqueue = some lateEnqueued ∧
    lateEnqueued.batchChannel = [⟨7, 0, 1⟩] := by
  decide

/-- C7, amended: from any state in which the context is cancelled, the production loop
completes at most one more `Generate` call and at most one more enqueue (those of the
iteration already under way), none at all when it stood at its `select` or had returned,
and every evaluation of its `select` makes it return instead of calling `Generate`. -/
theorem producer_after_cancel (s s' : State) (es : List Event)
    (hc : s.cancelled = true) (h : run s es = some s') :
    count isEnqueue es ≤ 1 ∧ count isGenReturn es ≤ 1 ∧
    (s.prod = .check ∨ s.prod = .returned →
      count isEnqueue es = 0 ∧ count isGenReturn es = 0) ∧
    (∀ m, step s' .prodSelect = some m → m.prod = .returned) := by
  have he := run_enqBudget es s s' h hc
  have hg := run_genBudget es s s' h hc
  have he1 := enqBudget_le s.prod
  have hg1 := genBudget_le s.prod
  have hc' := run_cancelled es s s' hc h
  refine ⟨by omega, by omega, ?_, ?_⟩
  · intro hp
    rcases hp with hp | hp <;> rw [hp] at he hg <;> simp only [enqBudget, genBudget] at he hg <;>
      omega
  · intro m hm
    simp only [step] at hm
    split at hm <;> simp [hc'] at hm
    rw [← hm]

/-- Witness for C7, amended: the producer of `lateState` enqueues and then returns. -/
theorem producer_after_cancel_witness :
    lateState.cancelled = true ∧
    run lateState [.enqueue, .prodSelect] = some { lateEnqueued with prod := .returned } ∧
    (count isEnqueue [.enqueue, .prodSelect] ≤ 1 ∧
     count isGenReturn [.enqueue, .prodSelect] ≤ 1 ∧
     (lateState.prod = .check ∨ lateState.prod = .returned →
       count isEnqueue [.enqueue, .prodSelect] = 0 ∧
       count isGenReturn [.enqueue, .prodSelect] = 0) ∧
     (∀ m, step { lateEnqueued with prod := .returned } .prodSelect = some m →
       m.prod = .returned)) :=
  ⟨by decide, by decide,
   producer_after_cancel lateState { lateEnqueued with prod := .returned }
     [.enqueue, .prodSelect] (by decide) (by decide)⟩

/-- C8 as stated fails: in `orphanTrace` `Start` returns while the production goroutine is
inside `Generate`; afterwards that goroutine still completes the call and enqueues. -/
theorem start_returns_while_producer_runs :
    run (init 0 0 0) orphanTrace = some orphanState ∧
    startReturned orphanState = true ∧
    orphanState.prod = .generating ∧
    run orphanState orphanRest = some orphanEnd ∧
    count isGenReturn orphanRest = 1 ∧ count isEnqueue orphanRest = 1 := by
  decide

/-- C8, amended: `Start` returns only once the dispatch loop has stopped for good (after
the return the context is cancelled, no action of the dispatch loop is enabled any more
and no further delivery goroutine is spawned); the production goroutine is not waited
for, but after the return it completes at most one more `Generate` call and at most one
more enqueue. -/
theorem start_return_stops_dispatch (l0 b0 e0 : Counter) (es es' : List Event)
    (s s' : State) (h : run (init l0 b0 e0) es = some s) (hr : startReturned s = true)
    (h' : run s es' = some s') :
    s.cancelled = true ∧ startReturned s' = true ∧ count isDispatch es' = 0 ∧
    s'.tasks.length = s.tasks.length ∧
    count isGenReturn es' ≤ 1 ∧ count isEnqueue es' ≤ 1 := by
  simp only [startReturned, decide_eq_true_eq] at hr ⊢
  have hc := run_returned_cancelled l0 b0 e0 es s h (Or.inr hr)
  obtain ⟨k1, k2, k3⟩ := run_after_return es' s s' h' hr
  have he := run_enqBudget es' s s' h' hc
  have hg := run_genBudget es' s s' h' hc
  have he1 := enqBudget_le s.prod
  have hg1 := genBudget_le s.prod
  exact ⟨hc, k1, k2, k3, by omega, by omega⟩

/-- Witness for C8, amended: `orphanTrace` followed by `orphanRest`. -/
theorem start_return_stops_dispatch_witness :
    run (init 0 0 0) orphanTrace = some orphanState ∧ startReturned orphanState = true ∧
    run orphanState orphanRest = some orphanEnd ∧
    (orphanState.cancelled = true ∧ startReturned orphanEnd = true ∧
     count isDispatch orphanRest = 0 ∧
     orphanEnd.tasks.length = orphanState.tasks.length ∧
     count isGenReturn orphanRest ≤ 1 ∧ count isEnqueue orphanRest ≤ 1) :=
  ⟨by decide, by decide, by decide,
   start_return_stops_dispatch 0 0 0 orphanTrace orphanRest orphanState orphanEnd
     (by decide) (by decide) (by decide)⟩

/-- C9: in every run the queue holds at most 5 batches, the producer holds at most one,
the number of successfully generated batches equals the number dispatched plus the number
queued plus the number held, the generated batches are exactly those (none discarded),
the enqueue is disabled while the queue holds 5 batches, and enabled for the held batch
while it holds fewer. -/
theorem queue_bounded_and_lossless (l0 b0 e0 : Counter) (es : List Event) (s : State)
    (h : run (init l0 b0 e0) es = some s) :
    s.batchChannel.length ≤ 5 ∧ (held s.prod).length ≤ 1 ∧
    (genBatches es).length = count isDequeue es + s.batchChannel.length + (held s.prod).length ∧
    genBatches es = pipeline s ∧
    (5 ≤ s.batchChannel.length → step s .enqueue = none) ∧
    (∀ b, s.prod = .sending b → s.batchChannel.length < 5 →
      step s .enqueue = some { s with prod := .check, batchChannel := s.batchChannel ++ [b] }) := by
  have hp := run_pipeline es _ s h
  rw [init_pipeline, List.nil_append] at hp
  have hlen := length_pipeline s
  rw [hp] at hlen
  have hn := run_tasks_length es _ s h
  simp only [init, List.length_nil, Nat.zero_add] at hn
  have hq : s.batchChannel.length ≤ 5 := run_queue_le es _ s (by simp [init]) h
  refine ⟨hq, held_length_le s.prod, by omega, hp.symm, ?_, ?_⟩
  · intro h5
    simp only [step]
    split
    · rw [if_neg (by simp only [queueCap]; omega)]
    · rfl
  · intro b hb hlt
    simp only [step, hb]
    rw [if_pos (by simpa only [queueCap] using hlt)]

/-- Witness for C9: the run `fillTrace`, which fills the queue. -/
theorem queue_bounded_and_lossless_witness :
    run (init 0 0 0) fillTrace = some fillState ∧
    (fillState.batchChannel.length ≤ 5 ∧ (held fillState.prod).length ≤ 1 ∧
     (genBatches fillTrace).length =
       count isDequeue fillTrace + fillState.batchChannel.length + (held fillState.prod).length ∧
     genBatches fillTrace = pipeline fillState ∧
     (5 ≤ fillState.batchChannel.length → step fillState .enqueue = none) ∧
     (∀ b, fillState.prod = .sending b → fillState.batchChannel.length < 5 →
       step fillState .enqueue =
         some { fillState with prod := .check, batchChannel := fillState.batchChannel ++ [b] })) :=
  ⟨by decide, queue_bounded_and_lossless 0 0 0 fillTrace fillState (by decide)⟩

/-- C10: the state `stuckState` is reachable (by `stuckTrace`, with a generator that only
fails); in it the context is cancelled, no delivery goroutine is in flight, the producer
has returned and the dispatch loop stands at the dequeue with an empty queue; and in
every continuation from it no action of the dispatch loop is enabled and `Start` has not
returned. -/
theorem cancelled_start_may_never_return (es : List Event) (s' : State)
    (h : run stuckState es = some s') :
    run (init 0 0 0) stuckTrace = some stuckState ∧
    stuckState.cancelled = true ∧ allDone stuckState = true ∧
    stuckState.prod = .returned ∧ stuckState.disp = .recv ∧ stuckState.batchChannel = [] ∧
    count isDispatch es = 0 ∧ s'.disp = .recv ∧ startReturned s' = false := by
  obtain ⟨⟨k1, _, _⟩, k2⟩ := run_stuck es stuckState s' h (by decide)
  refine ⟨by decide, by decide, by decide, by decide, by decide, by decide, k2, k1, ?_⟩
  simp [startReturned, k1]

/-- Witness for C10: the ticker keeps firing and the context is cancelled again. -/
theorem cancelled_start_may_never_return_witness :
    run stuckState [.tick, .cancel, .tick] = some { stuckState with tickReady := true } ∧
    (run (init 0 0 0) stuckTrace = some stuckState ∧
     stuckState.cancelled = true ∧ allDone stuckState = true ∧
     stuckState.prod = .returned ∧ stuckState.disp = .recv ∧ stuckState.batchChannel = [] ∧
     count isDispatch [.tick, .cancel, .tick] = 0 ∧
     ({ stuckState with tickReady := true } : State).disp = .recv ∧
     startReturned { stuckState with tickReady := true } = false) :=
  ⟨by decide,
   cancelled_start_may_never_return [.tick, .cancel, .tick]
     { stuckState with tickReady := true } (by decide)⟩

end Senders
